import Mathlib

/-!
Verification of the raster mosaic assembly pipeline of
`NIVANorge/norway_bathymetry` (notebook `src/code/01_process_raw_data.ipynb`)
against its specification.

The notebook's arrays are shallowly embedded as functions from pixel
coordinates to `Option ℚ`: `none` stands for a missing pixel (NaN after
`mask_and_scale=True` loading, or the no-data sentinel at serialization
time), `some v` for a valid value `v`.  Grid Repair works on text files of
numeric literals, embedded as lists of token rows.
-/

namespace NorwayBathymetry

/-- A pixel position on the fixed output canvas. -/
abbrev Pixel := Nat × Nat

/-- A spatially referenced raster restricted to the canvas: each pixel is
either missing (`none`, i.e. NaN / outside the source footprint) or holds a
numeric value. -/
abbrev Raster := Pixel → Option ℚ

/-- Modelled from the spec: one painting step of the first-wins merge of
`rioxarray.merge.merge_arrays` (an external collaborator, not code of this
repository).  A tile only fills pixels that the canvas has not already
resolved; an already-resolved pixel is never overwritten. -/
def paintFirst (canvas tile : Raster) : Raster :=
  fun p => if (canvas p).isSome then canvas p else tile p

/-- Modelled from the spec: `merge_arrays(srcs, ...)` with the default /
explicit `method="first"` policy.  The canvas starts all-missing and the
input tiles are painted in their given order, each filling only the pixels
still missing. -/
def mergeArrays (tiles : List Raster) : Raster :=
  tiles.foldl paintFirst (fun _ => none)

/-- The sign-inversion transform of the merge cell,
`bathy_ds.data = bathy_ds.data * -1`: every valid value is multiplied by
`-1`; a NaN pixel stays NaN (`NaN * -1 = NaN`). -/
def signInvert (a : Raster) : Raster :=
  fun p => (a p).map fun v => v * (-1)

/-- The floor-clipping transform of the combine cell,
`dem_ds.data[dem_ds.data < 0] = 0`: every valid value below zero is forced
to exactly zero; a NaN pixel is untouched (`NaN < 0` is false, so the mask
never selects it). -/
def floorClip (a : Raster) : Raster :=
  fun p => (a p).map fun v => if v < 0 then 0 else v

/-- The combine cell of the notebook: clip the topographic raster, then
priority-composite bathymetry (primary) over it with
`merge_arrays([bathy_ds, dem_ds], method="first", ...)`. -/
def combineCell (bathy dem : Raster) : Raster :=
  mergeArrays [bathy, floorClip dem]

/-- Helper: folding `paintFirst` from an arbitrary canvas reads back the
canvas value where it is resolved, and otherwise the first tile value that
is non-missing at the pixel. -/
theorem foldl_paintFirst (tiles : List Raster) (c : Raster) (p : Pixel) :
    tiles.foldl paintFirst c p =
      if (c p).isSome then c p
      else ((tiles.find? fun t => (t p).isSome).bind fun t => t p) := by
  induction tiles generalizing c with
  | nil => cases h : c p <;> simp [h]
  | cons t ts ih =>
    rw [List.foldl_cons, ih, List.find?_cons]
    by_cases hc : (c p).isSome
    · simp [paintFirst, hc]
    · by_cases ht : (t p).isSome
      · simp [paintFirst, hc, ht]
      · simp [paintFirst, hc, ht]

end NorwayBathymetry

namespace NorwayBathymetry

/-- C1: for canvas-aligned rasters (primary, secondary), the priority
composite at every pixel takes the primary value when non-missing, else the
secondary value when non-missing, else missing; in particular a bathymetry
value of `-5` wins over a topography value of `3` at the same pixel in the
notebook's combine cell. -/
theorem priorityComposite_spec (primary secondary : Raster) (p : Pixel) :
    (mergeArrays [primary, secondary] p =
      if (primary p).isSome then primary p
      else if (secondary p).isSome then secondary p
      else none)
    ∧ combineCell (fun _ => some (-5)) (fun _ => some 3) p = some (-5) := by
  constructor
  · rw [mergeArrays, foldl_paintFirst]
    by_cases h1 : (primary p).isSome
    · simp [h1]
    · by_cases h2 : (secondary p).isSome
      · simp [h1, h2]
      · simp [h1, h2, Option.not_isSome_iff_eq_none.mp h1,
          Option.not_isSome_iff_eq_none.mp h2]
  · rw [combineCell, mergeArrays, foldl_paintFirst]
    simp

/-- C2: the mosaic merge at every canvas pixel equals the value of the first
tile, in the given order, that is non-missing there (later tiles never
overwrite an already-resolved pixel), and a pixel covered by no tile is
missing. -/
theorem mergeArrays_first_wins (tiles : List Raster) (p : Pixel) :
    (mergeArrays tiles p =
      ((tiles.find? fun t => (t p).isSome).bind fun t => t p))
    ∧ ((∀ t ∈ tiles, t p = none) → mergeArrays tiles p = none) := by
  have key : mergeArrays tiles p =
      ((tiles.find? fun t => (t p).isSome).bind fun t => t p) := by
    rw [mergeArrays, foldl_paintFirst]; simp
  refine ⟨key, fun hall => ?_⟩
  rw [key]
  have : (tiles.find? fun t => (t p).isSome) = none := by
    rw [List.find?_eq_none]
    intro t ht
    simp [hall t ht]
  simp [this]

/-- Witness for C2 at a concrete tile list and pixel: two tiles both missing
at the pixel give a missing output. -/
theorem mergeArrays_first_wins_witness :
    mergeArrays [fun _ => none, fun _ => none] (0, 0) = none :=
  (mergeArrays_first_wins [fun _ => none, fun _ => none] (0, 0)).2
    (by intro t ht; fin_cases ht <;> rfl)

/-- C3: sign inversion is self-inverse — applying `data * -1` twice returns
the original raster exactly (missing pixels included). -/
theorem signInvert_involutive (a : Raster) :
    signInvert (signInvert a) = a := by
  funext p
  rw [signInvert, signInvert]
  cases a p with
  | none => rfl
  | some v => simp

/-- C4: floor clipping is idempotent — clipping an already-clipped raster
changes nothing. -/
theorem floorClip_idempotent (a : Raster) :
    floorClip (floorClip a) = floorClip a := by
  funext p
  rw [floorClip, floorClip]
  cases a p with
  | none => rfl
  | some v =>
    by_cases h : v < 0
    · simp [h]
    · simp [h]

/-- C10: both value transforms preserve missingness — a missing (NaN) pixel
stays missing under sign inversion (`NaN * -1 = NaN`) and under floor
clipping (`NaN < 0` is false); neither transform ever turns a missing pixel
into a data value. -/
theorem transforms_preserve_missing (a : Raster) (p : Pixel)
    (h : a p = none) :
    signInvert a p = none ∧ floorClip a p = none := by
  rw [signInvert, floorClip, h]
  exact ⟨rfl, rfl⟩

/-- Witness for C10: the all-missing raster at pixel (0,0). -/
theorem transforms_preserve_missing_witness :
    signInvert (fun _ => none) (0, 0) = none
      ∧ floorClip (fun _ => none) (0, 0) = none :=
  transforms_preserve_missing (fun _ => none) (0, 0) rfl

/-- A numeric literal of an `.xyz` text file, as `pandas` parses and
re-prints it: either an integer literal, or a plain decimal literal of
value `m / 10 ^ e`.  The model covers the plain decimal regime of the
Kartverket tiles (no exponent notation, within float64's 15
exactly-round-tripping significant digits), where `str(float(s))` returns
the same decimal with trailing fractional zeros stripped. -/
inductive NumLit where
  | int (z : Int)
  | dec (m : Int) (e : Nat)
deriving DecidableEq, Repr

/-- Exact rational value of a literal. -/
def NumLit.val : NumLit → ℚ
  | .int z => (z : ℚ)
  | .dec m e => (m : ℚ) / 10 ^ e

/-- Whether `pd.read_csv` sees the literal as an integer literal (a column
is inferred `int64` exactly when every literal in it is one). -/
def NumLit.isIntLit : NumLit → Bool
  | .int _ => true
  | .dec _ _ => false

/-- Round `m / n` (with `n > 0`) to the nearest integer, ties to even: the
numpy rounding used by `Series.round()` before `astype(int)`. -/
def rheDiv (m n : Int) : Int :=
  let q := m / n
  let r := m % n
  if 2 * r < n then q
  else if n < 2 * r then q + 1
  else if q % 2 = 0 then q else q + 1

/-- The value a literal takes after `round().astype(int)`: an integer
literal is unchanged, a decimal literal is rounded half-to-even. -/
def NumLit.rhe : NumLit → Int
  | .int z => z
  | .dec m e => rheDiv m (10 ^ e)

/-- Canonical printed form of a float64 whose exact value is `m / 10 ^ e`:
`str(float)` strips trailing fractional zeros but always keeps one
fractional digit (`str(3.0) = "3.0"`). -/
def canonF (m : Int) : Nat → NumLit
  | 0 => .dec (10 * m) 1
  | 1 => .dec m 1
  | e + 2 => if m % 10 = 0 then canonF (m / 10) (e + 1) else .dec m (e + 2)

/-- How a literal sitting in a float64 column is printed back by
`to_csv`: an integer literal was stored as the float `k.0`, a decimal
literal as its canonical shortest form. -/
def floatCanon : NumLit → NumLit
  | .int z => .dec (10 * z) 1
  | .dec m e => canonF m e

/-- A tile file in the fixed whitespace-delimited text layout: rows of
numeric literal tokens. -/
abbrev XyzFile := List (List NumLit)

/-- One parsed (x, y, z) record. -/
abbrev Rec3 := NumLit × NumLit × NumLit

/-- A row parses into a record exactly when it carries three fields. -/
def rowToTriple : List NumLit → Option Rec3
  | [a, b, c] => some (a, b, c)
  | _ => none

/-- `pd.read_csv(fpath, sep=" ", header=None)` on a three-column `.xyz`
file: each row becomes an (x, y, z) record; a ragged file (some row not
carrying exactly three fields) raises a parser error, and an empty file
raises `EmptyDataError` — both modelled as `Except.error`. -/
def readXyz (f : XyzFile) : Except String (List Rec3) :=
  match f.mapM rowToTriple with
  | none => .error "ParserError"
  | some [] => .error "EmptyDataError"
  | some (r :: rs) => .ok (r :: rs)

/-- One output row of the repair loop, given whether the z column was
inferred `int64`: x and y are printed as the rounded integers
(`df[0].round().astype(int)`, `df[1].round().astype(int)`); z is printed
unchanged in an int column and in canonical float form otherwise. -/
def outRow (zAllInt : Bool) (r : Rec3) : List NumLit :=
  [NumLit.int r.1.rhe, NumLit.int r.2.1.rhe,
    if zAllInt then r.2.2 else floatCanon r.2.2]

/-- The record produced by parsing `outRow zAllInt r` back. -/
def tripleOf (zAllInt : Bool) (r : Rec3) : Rec3 :=
  (NumLit.int r.1.rhe, NumLit.int r.2.1.rhe,
    if zAllInt then r.2.2 else floatCanon r.2.2)

/-- The rounding and rewrite of the repair loop body
(`df[0] = df[0].round().astype(int)`, same for `df[1]`, then
`df.to_csv(out_csv, sep=" ", header=False, index=False)`). -/
def writeRepaired (rs : List Rec3) : XyzFile :=
  rs.map (outRow (rs.all fun r => r.2.2.isIntLit))

/-- One iteration of the repair loop for one tile file: read the records,
round x and y to the nearest integer, write them back in the same
row-major text layout. -/
def repairFile (f : XyzFile) : Except String XyzFile :=
  (readXyz f).map writeRepaired

/-- The repair loop over the discovered tile files: files are processed in
order and an uncaught exception from one file propagates and aborts the
loop — the source has no per-file `try`/`except`. -/
def repairBatch : List XyzFile → Except String (List XyzFile)
  | [] => .ok []
  | f :: fs => do
    let g ← repairFile f
    let gs ← repairBatch fs
    pure (g :: gs)

/-- Helper: the canonical float form is never an integer literal. -/
theorem canonF_not_int : ∀ (e : Nat) (m : Int), (canonF m e).isIntLit = false
  | 0, _ => rfl
  | 1, _ => rfl
  | e + 2, m => by
    rw [canonF]
    by_cases h : m % 10 = 0
    · rw [if_pos h]; exact canonF_not_int (e + 1) (m / 10)
    · rw [if_neg h]; rfl

/-- Helper: `floatCanon` never returns an integer literal. -/
theorem floatCanon_not_int (n : NumLit) : (floatCanon n).isIntLit = false := by
  cases n with
  | int z => rfl
  | dec m e => exact canonF_not_int e m

/-- Helper: the canonical float form is a fixpoint of canonicalization. -/
theorem canonF_canon : ∀ (e : Nat) (m : Int),
    floatCanon (canonF m e) = canonF m e
  | 0, m => rfl
  | 1, _ => rfl
  | e + 2, m => by
    by_cases h : m % 10 = 0
    · rw [canonF, if_pos h]; exact canonF_canon (e + 1) (m / 10)
    · rw [canonF, if_neg h]
      show canonF m (e + 2) = NumLit.dec m (e + 2)
      rw [canonF, if_neg h]

/-- Helper: `floatCanon` is idempotent. -/
theorem floatCanon_fix (n : NumLit) : floatCanon (floatCanon n) = floatCanon n := by
  cases n with
  | int z => rfl
  | dec m e => exact canonF_canon e m

/-- Helper: canonicalization preserves the exact value. -/
theorem canonF_val : ∀ (e : Nat) (m : Int), (canonF m e).val = (m : ℚ) / 10 ^ e
  | 0, m => by
    show ((10 * m : Int) : ℚ) / 10 ^ 1 = (m : ℚ) / 10 ^ 0
    push_cast
    ring
  | 1, _ => rfl
  | e + 2, m => by
    by_cases h : m % 10 = 0
    · rw [canonF, if_pos h, canonF_val (e + 1) (m / 10)]
      obtain ⟨k, rfl⟩ := Int.dvd_of_emod_eq_zero h
      rw [Int.mul_ediv_cancel_left _ (by norm_num)]
      push_cast
      rw [div_eq_div_iff (by positivity) (by positivity)]
      ring
    · rw [canonF, if_neg h]
      rfl

/-- Helper: `floatCanon` preserves the exact value. -/
theorem floatCanon_val (n : NumLit) : (floatCanon n).val = n.val := by
  cases n with
  | int z =>
    show ((10 * z : Int) : ℚ) / 10 ^ 1 = (z : ℚ)
    push_cast
    ring
  | dec m e => exact canonF_val e m

/-- Helper: half-to-even rounding of `m / n` lands within one half of the
exact quotient. -/
theorem rheDiv_nearest (m n : Int) (hn : 0 < n) :
    |(m : ℚ) / (n : ℚ) - (rheDiv m n : ℚ)| ≤ 1 / 2 := by
  have hnQ : (0 : ℚ) < (n : ℚ) := by exact_mod_cast hn
  have hn0 : (n : ℚ) ≠ 0 := ne_of_gt hnQ
  have h0r : (0 : Int) ≤ m % n := Int.emod_nonneg m (ne_of_gt hn)
  have hrn : m % n < n := Int.emod_lt_of_pos m hn
  have hmr : (m : ℚ) = (n : ℚ) * ((m / n : Int) : ℚ) + ((m % n : Int) : ℚ) := by
    exact_mod_cast (Int.ediv_add_emod m n).symm
  have hdiff : (m : ℚ) / (n : ℚ) - ((m / n : Int) : ℚ)
      = ((m % n : Int) : ℚ) / (n : ℚ) := by
    rw [hmr]; field_simp
  have hr0Q : (0 : ℚ) ≤ ((m % n : Int) : ℚ) := by exact_mod_cast h0r
  have hrnQ : ((m % n : Int) : ℚ) < (n : ℚ) := by exact_mod_cast hrn
  simp only [rheDiv]
  split_ifs with h1 h2 h3
  · have h1Q : 2 * ((m % n : Int) : ℚ) < (n : ℚ) := by exact_mod_cast h1
    rw [abs_le]
    constructor
    · rw [hdiff]
      have : (0 : ℚ) ≤ ((m % n : Int) : ℚ) / (n : ℚ) := div_nonneg hr0Q hnQ.le
      linarith
    · rw [hdiff, div_le_iff₀ hnQ]
      linarith
  · have h2Q : (n : ℚ) < 2 * ((m % n : Int) : ℚ) := by exact_mod_cast h2
    have hstep : (m : ℚ) / (n : ℚ) - ((m / n + 1 : Int) : ℚ)
        = ((m % n : Int) : ℚ) / (n : ℚ) - 1 := by
      push_cast
      push_cast at hdiff
      linarith
    rw [abs_le, hstep]
    constructor
    · have hhalf : (1 : ℚ) / 2 ≤ ((m % n : Int) : ℚ) / (n : ℚ) := by
        rw [le_div_iff₀ hnQ]
        linarith
      linarith
    · have : ((m % n : Int) : ℚ) / (n : ℚ) < 1 := (div_lt_one hnQ).mpr hrnQ
      linarith
  · have htie : 2 * (m % n) = n := by omega
    have htieQ : 2 * ((m % n : Int) : ℚ) = (n : ℚ) := by exact_mod_cast htie
    have hhalf : ((m % n : Int) : ℚ) / (n : ℚ) = 1 / 2 := by
      rw [div_eq_iff hn0]; linarith
    rw [hdiff, hhalf, abs_le]
    constructor <;> norm_num
  · have htie : 2 * (m % n) = n := by omega
    have htieQ : 2 * ((m % n : Int) : ℚ) = (n : ℚ) := by exact_mod_cast htie
    have hhalf : ((m % n : Int) : ℚ) / (n : ℚ) = 1 / 2 := by
      rw [div_eq_iff hn0]; linarith
    have hstep : (m : ℚ) / (n : ℚ) - ((m / n + 1 : Int) : ℚ)
        = ((m % n : Int) : ℚ) / (n : ℚ) - 1 := by
      push_cast
      push_cast at hdiff
      linarith
    rw [hstep, hhalf, abs_le]
    constructor <;> norm_num

/-- Helper: the rounded literal is a nearest integer to the literal's exact
value. -/
theorem rhe_nearest (x : NumLit) : |x.val - (x.rhe : ℚ)| ≤ 1 / 2 := by
  cases x with
  | int z => simp [NumLit.val, NumLit.rhe]
  | dec m e =>
    have h := rheDiv_nearest m (10 ^ e) (by positivity)
    push_cast at h
    simpa [NumLit.val, NumLit.rhe] using h

/-- Helper: inversion of a successful `read_csv`. -/
theorem readXyz_ok (f : XyzFile) (rs : List Rec3) (h : readXyz f = .ok rs) :
    f.mapM rowToTriple = some rs ∧ rs ≠ [] := by
  unfold readXyz at h
  cases hm : f.mapM rowToTriple with
  | none => rw [hm] at h; simp at h
  | some l =>
    rw [hm] at h
    cases l with
    | nil => simp at h
    | cons a as =>
      simp only [Except.ok.injEq] at h
      exact ⟨by rw [← h], by rw [← h]; simp⟩

/-- Helper: parsing an emitted row recovers the emitted record. -/
theorem mapM_outRow (b : Bool) (rs : List Rec3) :
    (rs.map (outRow b)).mapM rowToTriple = some (rs.map (tripleOf b)) := by
  induction rs with
  | nil => rfl
  | cons r rest ih =>
    rw [List.map_cons, List.map_cons, List.mapM_cons, ih]
    rfl

/-- Helper: re-repairing an emitted record reproduces the emitted row. -/
theorem outRow_tripleOf (b : Bool) (r : Rec3) :
    outRow b (tripleOf b r) = outRow b r := by
  cases b with
  | false => simp [outRow, tripleOf, NumLit.rhe, floatCanon_fix]
  | true => simp [outRow, tripleOf, NumLit.rhe]

/-- Helper: an all-integer z column stays all-integer after repair. -/
theorem all_tripleOf_true (rs : List Rec3)
    (h : (rs.all fun r => r.2.2.isIntLit) = true) :
    ((rs.map (tripleOf true)).all fun r => r.2.2.isIntLit) = true := by
  rw [List.all_map]
  simpa [Function.comp, tripleOf] using h

/-- Helper: a float z column stays float after repair. -/
theorem all_tripleOf_false (r0 : Rec3) (rest : List Rec3) :
    (((r0 :: rest).map (tripleOf false)).all fun r => r.2.2.isIntLit) = false := by
  rw [List.map_cons, List.all_cons]
  simp [tripleOf, floatCanon_not_int]

end NorwayBathymetry

namespace NorwayBathymetry

/-- C5: Grid Repair is idempotent — running the repair loop body on a tile
file it itself produced returns that file byte-identically (in the token
model of the text layout). -/
theorem repairFile_idempotent (f g : XyzFile) (h : repairFile f = .ok g) :
    repairFile g = .ok g := by
  rw [repairFile] at h
  cases hr : readXyz f with
  | error e => rw [hr] at h; simp [Except.map] at h
  | ok rs =>
    rw [hr] at h
    simp only [Except.map, Except.ok.injEq] at h
    obtain ⟨hm, hne⟩ := readXyz_ok f rs hr
    obtain ⟨r0, rest, rfl⟩ : ∃ r0 rest, rs = r0 :: rest := by
      cases rs with
      | nil => exact absurd rfl hne
      | cons a as => exact ⟨a, as, rfl⟩
    set b := ((r0 :: rest).all fun r => r.2.2.isIntLit) with hb
    have hg : g = (r0 :: rest).map (outRow b) := by
      rw [← h, writeRepaired]
    have hmg : g.mapM rowToTriple = some ((r0 :: rest).map (tripleOf b)) := by
      rw [hg]; exact mapM_outRow b (r0 :: rest)
    have hreadg : readXyz g = .ok ((r0 :: rest).map (tripleOf b)) := by
      unfold readXyz
      rw [hmg, List.map_cons]
    have hb' : (((r0 :: rest).map (tripleOf b)).all fun r => r.2.2.isIntLit) = b := by
      cases hbv : b with
      | true => exact all_tripleOf_true _ (hb.symm.trans hbv)
      | false => exact all_tripleOf_false r0 rest
    rw [repairFile, hreadg]
    simp only [Except.map, Except.ok.injEq]
    rw [writeRepaired, hb', List.map_map, hg]
    exact List.map_congr_left fun r _ => outRow_tripleOf b r

/-- Witness for C5: a repaired one-record tile is a fixpoint of repair. -/
theorem repairFile_idempotent_witness :
    repairFile [[NumLit.int 10, NumLit.int 21, NumLit.dec 35 1]] =
      Except.ok [[NumLit.int 10, NumLit.int 21, NumLit.dec 35 1]] :=
  repairFile_idempotent
    [[NumLit.dec 104 1, NumLit.dec 206 1, NumLit.dec 35 1]]
    [[NumLit.int 10, NumLit.int 21, NumLit.dec 35 1]] rfl

/-- C6: every record of a repaired tile has x and y rounded to a nearest
integer and its z value unchanged; in particular a record (10.4, 20.6, z)
is repaired to (10, 21, z). -/
theorem repair_record_spec (rs : List Rec3) (i : Nat) (x y z : NumLit)
    (h : rs[i]? = some (x, y, z)) :
    (∃ z', (writeRepaired rs)[i]? =
        some [NumLit.int x.rhe, NumLit.int y.rhe, z'] ∧ z'.val = z.val)
    ∧ |x.val - (x.rhe : ℚ)| ≤ 1 / 2 ∧ |y.val - (y.rhe : ℚ)| ≤ 1 / 2
    ∧ (NumLit.dec 104 1).rhe = 10 ∧ (NumLit.dec 206 1).rhe = 21
    ∧ ∀ w : NumLit, ∃ z',
        repairFile [[NumLit.dec 104 1, NumLit.dec 206 1, w]] =
          Except.ok [[NumLit.int 10, NumLit.int 21, z']] ∧ z'.val = w.val := by
  refine ⟨?_, rhe_nearest x, rhe_nearest y, by decide, by decide, ?_⟩
  · refine ⟨if (rs.all fun r => r.2.2.isIntLit) = true then z else floatCanon z,
      ?_, ?_⟩
    · rw [writeRepaired, List.getElem?_map, h]
      rfl
    · by_cases hb : (rs.all fun r => r.2.2.isIntLit) = true <;>
        simp [hb, floatCanon_val]
  · intro w
    refine ⟨if w.isIntLit = true then w else floatCanon w, ?_, ?_⟩
    · have hread : readXyz [[NumLit.dec 104 1, NumLit.dec 206 1, w]] =
          .ok [(NumLit.dec 104 1, NumLit.dec 206 1, w)] := rfl
      rw [repairFile, hread]
      simp only [Except.map]
      rw [writeRepaired]
      simp only [List.all_cons, List.all_nil, Bool.and_true, List.map_cons,
        List.map_nil, outRow]
      rw [show NumLit.rhe (NumLit.dec 104 1) = 10 from by decide,
        show NumLit.rhe (NumLit.dec 206 1) = 21 from by decide]
    · by_cases hw : w.isIntLit = true <;> simp [hw, floatCanon_val]

/-- Witness for C6 at a concrete one-record tile. -/
theorem repair_record_spec_witness :
    ∃ z', (writeRepaired
        [(NumLit.dec 104 1, NumLit.dec 206 1, NumLit.int 7)])[0]? =
      some [NumLit.int (NumLit.dec 104 1).rhe,
        NumLit.int (NumLit.dec 206 1).rhe, z']
      ∧ z'.val = (NumLit.int 7).val :=
  (repair_record_spec [(NumLit.dec 104 1, NumLit.dec 206 1, NumLit.int 7)] 0
    (NumLit.dec 104 1) (NumLit.dec 206 1) (NumLit.int 7) rfl).1

/-- C7 counterexample: in a batch whose first tile file is ragged (a row
with four fields), the repair loop aborts with the parser error and the
second, well-formed file — which repairs fine on its own — is never
repaired; errors are not reported per-file with the batch running to
completion. -/
theorem repairBatch_abort_counterexample :
    repairBatch [[[NumLit.int 0, NumLit.int 0, NumLit.int 0],
        [NumLit.int 0, NumLit.int 0, NumLit.int 0, NumLit.int 0]],
      [[NumLit.dec 104 1, NumLit.dec 206 1, NumLit.int 5]]] =
        Except.error "ParserError"
    ∧ repairFile [[NumLit.dec 104 1, NumLit.dec 206 1, NumLit.int 5]] =
        Except.ok [[NumLit.int 10, NumLit.int 21, NumLit.int 5]] :=
  ⟨rfl, rfl⟩

/-- C7 amended: an error raised while repairing one tile file aborts the
whole batch — the files after the failing one are never processed, because
the loop has no per-file error handling. -/
theorem repairBatch_aborts (f : XyzFile) (fs : List XyzFile) (e : String)
    (h : repairFile f = .error e) :
    repairBatch (f :: fs) = .error e := by
  show (do
    let g ← repairFile f
    let gs ← repairBatch fs
    pure (g :: gs) : Except String (List XyzFile)) = .error e
  rw [h]
  rfl

/-- Witness for the amended C7: a single ragged file aborts its batch. -/
theorem repairBatch_aborts_witness :
    repairBatch [[[NumLit.int 1, NumLit.int 2]]] = Except.error "ParserError" :=
  repairBatch_aborts [[NumLit.int 1, NumLit.int 2]] [] "ParserError" rfl

/-- A file-system operation the save step can perform.  Content is the
serialized raster, abstracted as a list of machine words. -/
inductive FsOp where
  | writeFile (path : String) (content : List Int)
  | rename (src dst : String)
deriving DecidableEq

/-- A file system: each path holds a file's content or nothing. -/
def FileSys := String → Option (List Int)

/-- Effect of one completed operation. -/
def applyOp (fs : FileSys) : FsOp → FileSys
  | .writeFile p c => fun q => if q = p then some c else fs q
  | .rename s d => fun q => if q = d then fs s else if q = s then none else fs q

/-- Effect of a completed operation sequence. -/
def runOps (fs : FileSys) : List FsOp → FileSys
  | [] => fs
  | op :: ops => runOps (applyOp fs op) ops

/-- State after the first `k` operations complete and the next one is
interrupted (disk full, permission denied, crash): an interrupted write
leaves whatever part of the content made it to disk at its target path,
while a rename is atomic and leaves the state unchanged. -/
def crashDuring (fs : FileSys) (plan : List FsOp) (k : Nat)
    (part : List Int) : FileSys :=
  let fs' := runOps fs (plan.take k)
  match plan[k]? with
  | some (FsOp.writeFile p _) => applyOp fs' (.writeFile p part)
  | _ => fs'

/-- The save step of the combine cell,
`ds.rio.to_raster(merge_path, compress="lzw", BIGTIFF="YES", tiled=True,
dtype=dst_dtype)`: one direct write of the serialized raster to the output
path — no temporary path and no rename. -/
def savePlan (path : String) (content : List Int) : List FsOp :=
  [FsOp.writeFile path content]

/-- C8 counterexample: the final artifact is saved by a single direct write
to the output path, and interrupting that write on an empty file system
leaves a strict part of the content behind at the output path — a partial
file, which the claim says can never exist. -/
theorem savePlan_partial_file_counterexample :
    savePlan "out.tif" [1, 2, 3] = [FsOp.writeFile "out.tif" [1, 2, 3]]
    ∧ crashDuring (fun _ => none) (savePlan "out.tif" [1, 2, 3]) 0 [1] "out.tif"
        = some [1]
    ∧ ([1] : List Int) ≠ [1, 2, 3]
    ∧ (some [1] : Option (List Int)) ≠ none := by
  refine ⟨rfl, ?_, by decide, by decide⟩
  show applyOp (fun _ => none) (.writeFile "out.tif" [1]) "out.tif" = some [1]
  simp [applyOp]

/-- C8 amended: the raster is written directly to the output path in a
single write, with no temporary path and no rename anywhere in the plan;
consequently an interrupted write leaves exactly the partially written
content at the output path. -/
theorem savePlan_direct (p : String) (c part : List Int) (fs : FileSys) :
    savePlan p c = [FsOp.writeFile p c]
    ∧ (∀ s d, FsOp.rename s d ∉ savePlan p c)
    ∧ crashDuring fs (savePlan p c) 0 part p = some part := by
  refine ⟨rfl, by simp [savePlan], ?_⟩
  show applyOp fs (.writeFile p part) p = some part
  simp [applyOp]

/-- Witness for the amended C8 at a concrete path, content and file
system. -/
theorem savePlan_direct_witness :
    savePlan "o" [5] = [FsOp.writeFile "o" [5]]
    ∧ (∀ s d, FsOp.rename s d ∉ savePlan "o" [5])
    ∧ crashDuring (fun _ => none) (savePlan "o" [5]) 0 [] "o" = some [] :=
  savePlan_direct "o" [5] [] (fun _ => none)

/-- C9's model of the storage-dtype cast collaborator: IEEE float32
round-to-nearest-even restricted to integer-valued data of magnitude below
2^25 (integers up to 2^24 are exactly representable in the 24-bit
significand; above that, the nearest even integer is taken). -/
def castF32 (z : Int) : Int :=
  if z.natAbs ≤ 2 ^ 24 then z
  else if z % 2 = 0 then z
  else if (z - 1) % 4 = 0 then z - 1
  else z + 1

/-- The serialization call `bathy_ds.rio.to_raster(..., dtype=dst_dtype)`:
the in-memory data is narrowed elementwise by the codec's cast and the
write succeeds — the notebook performs no precision check and no
dtype-precision error is ever raised. -/
def toRaster (cast : Int → Int) (data : List Int) : Except String (List Int) :=
  .ok (data.map cast)

/-- C9 counterexample: serializing the value 2^24 + 1 = 16777217 with the
float32 cast silently stores 16777216 and reports success — the truncating
narrowing is applied, not surfaced as a configuration error. -/
theorem toRaster_silent_truncation_counterexample :
    toRaster castF32 [16777217] = Except.ok [16777216]
    ∧ castF32 16777217 ≠ 16777217
    ∧ (toRaster castF32 [16777217]).isOk = true := by
  refine ⟨rfl, by decide, rfl⟩

/-- C9 amended: serialization never surfaces a dtype-precision error — for
every cast and every data array it reports success, with each stored value
the cast image of the corresponding in-memory value. -/
theorem toRaster_silent (cast : Int → Int) (data : List Int) :
    ∃ out, toRaster cast data = Except.ok out
      ∧ out.length = data.length
      ∧ ∀ i : Nat, out[i]? = (data[i]?).map cast := by
  refine ⟨data.map cast, rfl, List.length_map data cast, ?_⟩
  intro i
  exact List.getElem?_map cast data i

end NorwayBathymetry
